import Mathlib

/-!
A verification development for `pgs_gen.py`, a PG-Schema to Cypher generator.

The Python source is embedded shallowly:
* the two regular expressions (`node_pattern`, `relationship_pattern`) become
  deterministic matchers over `List Char` (`matchNodeAt` / `matchRelAt`) plus a
  leftmost `search` (`searchNode` / `searchRel`); determinism is faithful here
  because in both patterns every quantified class (`\w`, `\s`, `[^}]`) is
  disjoint from the character that must follow it, so the greedy backtracking
  engine never backtracks inside a successful attempt;
* Python dictionaries become association lists with last-write-wins insertion
  (`upsert`), preserving first-insertion order exactly as `dict` does;
* the global random source becomes an explicit stream `g : Nat -> Nat` of raw
  draws together with a position counter; each primitive draws by reducing the
  next raw value modulo the size of its sample space
  (`random.choices(string.ascii_uppercase)`, `random.randint(1, 1000)`,
  `random.choice(lst)`);
* machine-level details do not arise: all counts are `Int`/`Nat` exactly as
  Python's unbounded integers.
-/

namespace PgsGen

/-- Python regex word character `\w`: `[A-Za-z0-9_]` on the ASCII inputs handled here. -/
def isWordChar (c : Char) : Bool := c.isAlphanum || c = '_'

/-- Python whitespace: the characters recognized by `str.strip` and regex `\s`. -/
def isSpaceChar (c : Char) : Bool :=
  c = ' ' || c = '\t' || c = '\n' || c = '\r' || c = '\x0b' || c = '\x0c'

/-- Greedy `\s*`. -/
def skipWS : List Char → List Char
  | [] => []
  | c :: rest => if isSpaceChar c then skipWS rest else c :: rest

/-- Match one literal character. -/
def expectChar (c : Char) : List Char → Option (List Char)
  | [] => none
  | d :: rest => if d = c then some rest else none

/-- Greedy `\w+`: the maximal nonempty run of word characters. -/
def takeWord (cs : List Char) : Option (List Char × List Char) :=
  let w := cs.takeWhile isWordChar
  if w.isEmpty then none else some (w, cs.dropWhile isWordChar)

/-- Attempt of `node_pattern` at the start of `cs0`, i.e. the regex
`\(\s*(\w+)\s*:\s*(\w+)\s*\x7b\s*([^\x7d]*)\s*\x7d\s*\)`
(braces escaped); returns the three groups (internal label, external label,
properties text). -/
def matchNodeAt (cs0 : List Char) : Option (String × String × String) := do
  let cs ← expectChar '(' cs0
  let (g1, cs) ← takeWord (skipWS cs)
  let cs ← expectChar ':' (skipWS cs)
  let (g2, cs) ← takeWord (skipWS cs)
  let cs ← expectChar '\x7b' (skipWS cs)
  let cs := skipWS cs
  let g3 := cs.takeWhile (fun c => c ≠ '\x7d')
  let cs := cs.dropWhile (fun c => c ≠ '\x7d')
  let cs ← expectChar '\x7d' cs
  let _ ← expectChar ')' (skipWS cs)
  pure (g1.asString, g2.asString, g3.asString)

/-- `node_pattern.search`: first position where `matchNodeAt` succeeds. -/
def searchNode : List Char → Option (String × String × String)
  | [] => none
  | c :: rest =>
    match matchNodeAt (c :: rest) with
    | some r => some r
    | none => searchNode rest

/-- Second half of `relationship_pattern`, from the external relationship label
group on: the regex fragment `\s*(\w+)\s*\]->\(\s*:\s*(\w+)\s*\)`; returns the
external relationship label and the end label. -/
def matchRelTail (cs1 : List Char) : Option (String × String) := do
  let (g3, cs) ← takeWord (skipWS cs1)
  let cs ← expectChar ']' (skipWS cs)
  let cs ← expectChar '-' cs
  let cs ← expectChar '>' cs
  let cs ← expectChar '(' cs
  let cs ← expectChar ':' (skipWS cs)
  let (g4, cs) ← takeWord (skipWS cs)
  let _ ← expectChar ')' (skipWS cs)
  pure (g3.asString, g4.asString)

/-- Attempt of `relationship_pattern` at the start of `cs0`, i.e. the regex
`\(\s*:\s*(\w+)\s*\)\s*-\[\s*(\w+)\s*:\s*(\w+)\s*\]->\(\s*:\s*(\w+)\s*\)`;
returns the four groups (start label, internal rel label, external rel label,
end label). -/
def matchRelAt (cs0 : List Char) : Option (String × String × String × String) := do
  let cs ← expectChar '(' cs0
  let cs ← expectChar ':' (skipWS cs)
  let (g1, cs) ← takeWord (skipWS cs)
  let cs ← expectChar ')' (skipWS cs)
  let cs ← expectChar '-' (skipWS cs)
  let cs ← expectChar '[' cs
  let (g2, cs) ← takeWord (skipWS cs)
  let cs ← expectChar ':' (skipWS cs)
  let (g3, g4) ← matchRelTail cs
  pure (g1.asString, g2.asString, g3, g4)

/-- `relationship_pattern.search`: first position where `matchRelAt` succeeds. -/
def searchRel : List Char → Option (String × String × String × String)
  | [] => none
  | c :: rest =>
    match matchRelAt (c :: rest) with
    | some r => some r
    | none => searchRel rest

/-- Python `str.strip()`. -/
def pyStrip (s : String) : String :=
  (((s.data.dropWhile isSpaceChar).reverse.dropWhile isSpaceChar).reverse).asString

/-- Helper of `pySplitChar`, accumulating the current piece reversed. -/
def pySplitCharAux (sep : Char) (cur : List Char) : List Char → List String
  | [] => [cur.reverse.asString]
  | c :: rest =>
    if c = sep then cur.reverse.asString :: pySplitCharAux sep [] rest
    else pySplitCharAux sep (c :: cur) rest

/-- Python `str.split(sep)` for a one-character separator: keeps empty pieces,
always yields at least one piece. -/
def pySplitChar (sep : Char) (s : String) : List String :=
  pySplitCharAux sep [] s.data

/-- Helper of `pyWords`, accumulating the current word reversed. -/
def pyWordsAux (cur : List Char) : List Char → List String
  | [] => if cur.isEmpty then [] else [cur.reverse.asString]
  | c :: rest =>
    if isSpaceChar c then
      if cur.isEmpty then pyWordsAux [] rest
      else cur.reverse.asString :: pyWordsAux [] rest
    else pyWordsAux (c :: cur) rest

/-- Python `str.split()` with no argument: split on whitespace runs, dropping
empty pieces. -/
def pyWords (s : String) : List String := pyWordsAux [] s.data

/-- One comma-separated property entry: `split()` it and keep the first two
tokens as (name, type) when there are at least two (`len(parts) >= 2`). -/
def propOfEntry (p : String) : Option (String × String) :=
  match pyWords p with
  | a :: b :: _ => some (a, b)
  | _ => none

/-- The property-block parser inside the node branch of `parse_pg_schema`:
nothing when the stripped text is empty, otherwise split on commas, strip each
entry and keep the well-formed ones. -/
def parseProps (propsStr : String) : List (String × String) :=
  if pyStrip propsStr = "" then []
  else ((pySplitChar ',' propsStr).map pyStrip).filterMap propOfEntry

/-- The value stored in `nodes_dict` for an internal label. -/
structure NodeInfo where
  external_label : String
  properties : List (String × String)
deriving DecidableEq, Repr

/-- A parsed relationship tuple, in the source's order:
(rel internal label, start internal label, end internal label, rel external label). -/
abbrev RelTuple := String × String × String × String

/-- Association-list lookup with Python `dict` `get`/`in` semantics. -/
def lookupA (m : List (String × α)) (k : String) : Option α :=
  match m with
  | [] => none
  | (k1, v) :: rest => if k1 = k then some v else lookupA rest k

/-- Association-list insertion with Python `dict` assignment semantics: an
existing key keeps its position and gets the new value, a new key is appended. -/
def upsert (m : List (String × α)) (k : String) (v : α) : List (String × α) :=
  match m with
  | [] => [(k, v)]
  | (k1, v1) :: rest => if k1 = k then (k, v) :: rest else (k1, v1) :: upsert rest k v

/-- One iteration of the line loop of `parse_pg_schema`: strip the line, skip
it when empty, otherwise record a node declaration if `node_pattern` matches
and, independently, a relationship declaration if `relationship_pattern`
matches. -/
def parseLine (st : List (String × NodeInfo) × List RelTuple) (rawLine : String) :
    List (String × NodeInfo) × List RelTuple :=
  let line := pyStrip rawLine
  if line = "" then st
  else
    let st1 :=
      match searchNode line.data with
      | some (il, el, ps) => (upsert st.1 il ⟨el, parseProps ps⟩, st.2)
      | none => st
    match searchRel line.data with
    | some (sl, irl, erl, el) => (st1.1, st1.2 ++ [(irl, sl, el, erl)])
    | none => st1

/-- `parse_pg_schema`: split the schema text on newlines and accumulate
`nodes_dict` and `relationships_list`. -/
def parse_pg_schema (schemaText : String) : List (String × NodeInfo) × List RelTuple :=
  (pySplitChar '\n' schemaText).foldl parseLine ([], [])

/-- One raw draw reduced to a `random.choices(string.ascii_uppercase)` pick:
an uppercase letter indexed by the draw modulo 26. -/
def letterOfDraw (d : Nat) : Char := Char.ofNat (65 + d % 26)

/-- `generate_random_string()`: eight independent uppercase-letter draws,
consuming positions `k, ..., k + 7` of the stream. -/
def randString (g : Nat → Nat) (k : Nat) : String × Nat :=
  (((List.range 8).map (fun j => letterOfDraw (g (k + j)))).asString, k + 8)

/-- `generate_random_int()`, i.e. `random.randint(1, 1000)`: one draw reduced
into the inclusive range [1, 1000]. -/
def randInt1000 (g : Nat → Nat) (k : Nat) : Int × Nat :=
  (1 + (g k % 1000 : Nat), k + 1)

/-- `random.choice(xs)` for the nonempty lists the generator feeds it: one draw
indexing the list. (On `[]` Python would raise; both call sites guard.) -/
def choice (xs : List String) (g : Nat → Nat) (k : Nat) : String × Nat :=
  (xs.getD (g k % xs.length) "", k + 1)

/-- A generated Python property value. -/
inductive PyVal
  | str (s : String)
  | int (n : Int)
deriving DecidableEq, Repr

/-- A single-quote character, by code point. -/
def squote : String := (Char.ofNat 39).toString

/-- Python `repr` restricted to the two value shapes the generator produces:
generated strings consist of uppercase letters only, so `repr` wraps them in
single quotes with nothing to escape; integers print in decimal. -/
def pyRepr : PyVal → String
  | .str s => squote ++ s ++ squote
  | .int n => toString n

/-- `prop_type.upper()` on the ASCII type tokens involved (character-wise
uppercasing, written over `data` so that it evaluates by reduction). -/
def pyUpper (s : String) : String := (s.data.map Char.toUpper).asString

/-- The per-property dispatch in `generate_cypher_for_nodes`: STRING gives a
random string, INT a random integer, anything else falls back to a random
string. -/
def genValue (propType : String) (g : Nat → Nat) (k : Nat) : PyVal × Nat :=
  if pyUpper propType = "STRING" then
    (.str (randString g k).1, (randString g k).2)
  else if pyUpper propType = "INT" then
    (.int (randInt1000 g k).1, (randInt1000 g k).2)
  else
    (.str (randString g k).1, (randString g k).2)

/-- The `prop_assignments` dictionary built for one node instance: a value is
drawn for every declared property in order, a duplicated property name
overwriting dict-style. -/
def genProps (props : List (String × String)) (g : Nat → Nat) (k : Nat) :
    List (String × PyVal) × Nat :=
  props.foldl
    (fun acc p => (upsert acc.1 p.1 (genValue p.2 g acc.2).1, (genValue p.2 g acc.2).2))
    ([], k)

/-- The node statement f-string
`CREATE (\x7bnode_id\x7d:\x7bexternal_label\x7d \x7b\x7b \x7bprop_list_str\x7d \x7d\x7d);`. -/
def mkNodeStmt (nid ext : String) (props : List (String × PyVal)) : String :=
  "CREATE (" ++ nid ++ ":" ++ ext ++ " \x7b " ++
    String.intercalate ", " (props.map (fun p => p.1 ++ ": " ++ pyRepr p.2)) ++
    " \x7d);"

/-- One instance iteration of `generate_cypher_for_nodes`: draw the property
values, form the identifier `label_i`, append the statement and the
identifier. -/
def nodeStep (label : String) (info : NodeInfo) (g : Nat → Nat)
    (acc : List String × List String × Nat) (i : Nat) : List String × List String × Nat :=
  let pr := genProps info.properties g acc.2.2
  let nid := label ++ "_" ++ Nat.repr i
  (acc.1 ++ [mkNodeStmt nid info.external_label pr.1], acc.2.1 ++ [nid], pr.2)

/-- The instance loop of `generate_cypher_for_nodes` for one node type:
the statements and identifiers appended for that label, and the advanced
stream position. -/
def genNodesFor (label : String) (info : NodeInfo) (n : Nat) (g : Nat → Nat) (k : Nat) :
    List String × List String × Nat :=
  (List.range n).foldl (nodeStep label info g) ([], [], k)

/-- `node_ids[label].append(...)` iterated: the single entry for `label`
receives the freshly generated identifiers. -/
def appendIds (nids : List (String × List String)) (label : String) (ids : List String) :
    List (String × List String) :=
  match nids with
  | [] => []
  | (l, old) :: rest =>
    if l = label then (l, old ++ ids) :: rest else (l, old) :: appendIds rest label ids

/-- One node-type iteration of `generate_cypher_for_nodes`: resolve the count
as `counts_map.get(label, default_count)` (where `range` of a negative Python
int is empty, hence `Int.toNat`), run the instance loop, extend the statements
and this label's identifier entry. The source appends to `node_ids[label]`
once per instance; the appends are grouped per label here, which is faithful
because a `dict` holds each label exactly once. -/
def nodesStep (counts : List (String × Int)) (dflt : Int) (g : Nat → Nat)
    (acc : List String × List (String × List String) × Nat) (p : String × NodeInfo) :
    List String × List (String × List String) × Nat :=
  let n := (lookupA counts p.1).getD dflt
  let r := genNodesFor p.1 p.2 n.toNat g acc.2.2
  (acc.1 ++ r.1, appendIds acc.2.1 p.1 r.2.1, r.2.2)

/-- `generate_cypher_for_nodes`: `node_ids` starts with an empty list per
declared label, then the declared node types are processed in order. -/
def generate_cypher_for_nodes (nodes : List (String × NodeInfo))
    (counts : List (String × Int)) (dflt : Int) (g : Nat → Nat) :
    List String × List (String × List String) × Nat :=
  nodes.foldl (nodesStep counts dflt g) ([], nodes.map (fun p => (p.1, [])), 0)

/-- The relationship statement f-string
`CREATE (\x7bs_node\x7d)-[:\x7bexternal_rel_label\x7d]->(\x7be_node\x7d);`. -/
def mkRelStmt (s ext e : String) : String :=
  "CREATE (" ++ s ++ ")-[:" ++ ext ++ "]->(" ++ e ++ ");"

/-- The attempt loop of `generate_cypher_for_relationships` for one
relationship type with identifier pools `starts` and `ends`: every attempt
first re-checks that both pools are nonempty (`continue` otherwise), then
draws a start and an end identifier and emits a statement unless the two
coincide (a self-loop attempt is dropped without replacement). -/
def genRelsFor (ext : String) (starts ends : List String) (m : Nat)
    (g : Nat → Nat) (k : Nat) : List String × Nat :=
  match m with
  | 0 => ([], k)
  | m1 + 1 =>
    if starts.isEmpty || ends.isEmpty then genRelsFor ext starts ends m1 g k
    else
      let s := (choice starts g k).1
      let e := (choice ends g (k + 1)).1
      let rest := genRelsFor ext starts ends m1 g (k + 2)
      (if s ≠ e then mkRelStmt s ext e :: rest.1 else rest.1, rest.2)

/-- One iteration of the outer loop of `generate_cypher_for_relationships`:
look up the requested count, skip the type when either referenced label is
absent from `node_ids`, otherwise run the attempt loop. -/
def relStep (nids : List (String × List String)) (counts : List (String × Int))
    (dflt : Int) (g : Nat → Nat) (acc : List String × Nat) (r : RelTuple) :
    List String × Nat :=
  let m := (lookupA counts r.1).getD dflt
  match lookupA nids r.2.1, lookupA nids r.2.2.1 with
  | some starts, some ends =>
    (acc.1 ++ (genRelsFor r.2.2.2 starts ends m.toNat g acc.2).1,
      (genRelsFor r.2.2.2 starts ends m.toNat g acc.2).2)
  | _, _ => acc

/-- `generate_cypher_for_relationships`, with `k0` the stream position left by
node generation. -/
def generate_cypher_for_relationships (rels : List RelTuple)
    (nids : List (String × List String)) (counts : List (String × Int))
    (dflt : Int) (g : Nat → Nat) (k0 : Nat) : List String × Nat :=
  rels.foldl (relStep nids counts dflt g) ([], k0)

/-- Decimal digit value. -/
def digitVal (c : Char) : Nat := c.toNat - 48

/-- Digits of a Python integer literal after the first digit: a digit run
allowing single underscores between digits, as `int` does. -/
def parseDigitsAux (acc : Nat) : List Char → Option Nat
  | [] => some acc
  | '_' :: rest =>
    match rest with
    | c :: rest1 => if c.isDigit then parseDigitsAux (acc * 10 + digitVal c) rest1 else none
    | [] => none
  | c :: rest => if c.isDigit then parseDigitsAux (acc * 10 + digitVal c) rest else none

/-- Python `int(s)` in base 10 on an already-stripped string: an optional sign
followed by a digit run. -/
def pyInt (s : String) : Option Int :=
  match s.data with
  | [] => none
  | '-' :: rest =>
    match rest with
    | c :: rest1 =>
      if c.isDigit then (parseDigitsAux (digitVal c) rest1).map (fun n => -(n : Int)) else none
    | [] => none
  | '+' :: rest =>
    match rest with
    | c :: rest1 =>
      if c.isDigit then (parseDigitsAux (digitVal c) rest1).map (fun n => (n : Int)) else none
    | [] => none
  | c :: rest =>
    if c.isDigit then (parseDigitsAux (digitVal c) rest).map (fun n => (n : Int)) else none

/-- One row of the count CSV: a row with fewer than two fields is skipped, the
stripped count field must parse as a Python `int` (skipped otherwise), and a
repeated label is overwritten dict-style. -/
def csvStep (m : List (String × Int)) (row : List String) : List (String × Int) :=
  match row with
  | a :: b :: _ =>
    match pyInt (pyStrip b) with
    | some n => upsert m (pyStrip a) n
    | none => m
  | _ => m

/-- `read_csv_counts`, over the rows the `csv` module delivers (each row a list
of field strings). -/
def read_csv_counts (rows : List (List String)) : List (String × Int) :=
  rows.foldl csvStep []

/-- The identifier list recorded for a label generated with `n` instances. -/
def idsFor (label : String) (n : Nat) : List String :=
  (List.range n).map (fun i => label ++ "_" ++ Nat.repr i)

/-- Among `m` consecutive relationship attempts starting at stream position
`k`, the number whose two draws pick the same identifier. -/
def selfLoopCount (starts ends : List String) (g : Nat → Nat) (k : Nat) : Nat → Nat
  | 0 => 0
  | m1 + 1 =>
    (if (choice starts g k).1 = (choice ends g (k + 1)).1 then 1 else 0) +
      selfLoopCount starts ends g (k + 2) m1

/-- The decimal digit characters of `n`, most significant first: a structural
description of what `Nat.toDigitsCore` computes. -/
def digitsRec (n : Nat) : List Char :=
  if _h : n < 10 then [Nat.digitChar n]
  else digitsRec (n / 10) ++ [Nat.digitChar (n % 10)]
decreasing_by exact Nat.div_lt_self (by omega) (by omega)

/-- Read a digit run back as a number, with accumulator `a`. -/
def val10From (a : Nat) (l : List Char) : Nat :=
  l.foldl (fun x c => 10 * x + digitVal c) a

/-- The scenario schema with one property-free Person node type and a
Person-to-Person `knows` relationship type. -/
def schemaPersonKnows : String :=
  "(PersonType: Person \x7b\x7d)\n(:PersonType)-[Knows: knows]->(:PersonType)"

/-- The scenario schema with a Person node type carrying a STRING and an INT
property. -/
def schemaPersonProps : String :=
  "(PersonType: Person \x7bname STRING, age INT\x7d)"

/-! ### Decimal representations are injective -/

theorem digitChar_digitVal (m : Nat) (h : m < 10) : digitVal (Nat.digitChar m) = m := by
  interval_cases m <;> rfl

theorem toDigitsCore_eq_digitsRec :
    ∀ (fuel n : Nat) (acc : List Char), n < fuel →
      Nat.toDigitsCore 10 fuel n acc = digitsRec n ++ acc := by
  intro fuel
  induction fuel with
  | zero => intro n acc h; omega
  | succ f ih =>
    intro n acc h
    by_cases h10 : n < 10
    · have hdiv : n / 10 = 0 := by omega
      rw [Nat.toDigitsCore, digitsRec]
      simp [hdiv, h10, Nat.mod_eq_of_lt h10]
    · have hdiv : n / 10 ≠ 0 := by omega
      rw [Nat.toDigitsCore]
      simp only [hdiv, if_false]
      rw [ih (n / 10) _ (by omega)]
      have hstep : digitsRec n = digitsRec (n / 10) ++ [Nat.digitChar (n % 10)] := by
        rw [digitsRec]
        simp [h10]
      rw [hstep]
      simp [List.append_assoc]

theorem toDigits_eq_digitsRec (n : Nat) : Nat.toDigits 10 n = digitsRec n := by
  have h := toDigitsCore_eq_digitsRec (n + 1) n [] (by omega)
  simpa [Nat.toDigits] using h

theorem val10From_append (a : Nat) (l1 l2 : List Char) :
    val10From a (l1 ++ l2) = val10From (val10From a l1) l2 := by
  simp [val10From, List.foldl_append]

theorem val10From_digitsRec :
    ∀ (n : Nat) (a : Nat), val10From a (digitsRec n) = a * 10 ^ (digitsRec n).length + n := by
  intro n
  induction n using Nat.strong_induction_on with
  | _ n ih =>
    intro a
    by_cases h10 : n < 10
    · rw [digitsRec]
      simp [h10, val10From, digitChar_digitVal n h10]
      ring
    · rw [digitsRec]
      simp only [h10, dite_false]
      rw [val10From_append, ih (n / 10) (Nat.div_lt_self (by omega) (by omega))]
      have hm : n % 10 < 10 := Nat.mod_lt _ (by omega)
      simp [val10From, digitChar_digitVal (n % 10) hm]
      have hsplit : 10 * (n / 10) + n % 10 = n := Nat.div_add_mod n 10
      ring_nf
      omega

theorem digitsRec_injective {m n : Nat} (h : digitsRec m = digitsRec n) : m = n := by
  have hm := val10From_digitsRec m 0
  have hn := val10From_digitsRec n 0
  rw [h] at hm
  omega

theorem repr_data_injective {m n : Nat} (h : (Nat.repr m).data = (Nat.repr n).data) : m = n := by
  apply digitsRec_injective
  rw [← toDigits_eq_digitsRec, ← toDigits_eq_digitsRec]
  exact h

theorem nodeId_injective (label : String) {i j : Nat}
    (h : label ++ "_" ++ Nat.repr i = label ++ "_" ++ Nat.repr j) : i = j := by
  have hd := congrArg String.data h
  simp only [String.data_append, List.append_assoc, List.singleton_append] at hd
  have htail := List.append_cancel_left hd
  exact repr_data_injective (by injection htail)

theorem idsFor_nodup (label : String) (n : Nat) : (idsFor label n).Nodup := by
  refine List.Nodup.map ?_ (List.nodup_range n)
  intro i j hij
  exact nodeId_injective label hij

theorem idsFor_length (label : String) (n : Nat) : (idsFor label n).length = n := by
  simp [idsFor]

theorem idsFor_shape (label : String) (n : Nat) :
    ∀ s ∈ idsFor label n, ∃ i, i < n ∧ s = label ++ "_" ++ Nat.repr i := by
  intro s hs
  simp only [idsFor, List.mem_map, List.mem_range] at hs
  obtain ⟨i, hi, rfl⟩ := hs
  exact ⟨i, hi, rfl⟩

/-! ### Node generation -/

theorem genNodesFor_loop (label : String) (info : NodeInfo) (g : Nat → Nat) :
    ∀ (l : List Nat) (s0 ids0 : List String) (k : Nat),
      (l.foldl (nodeStep label info g) (s0, ids0, k)).1.length = s0.length + l.length ∧
      (l.foldl (nodeStep label info g) (s0, ids0, k)).2.1 =
        ids0 ++ l.map (fun i => label ++ "_" ++ Nat.repr i) := by
  intro l
  induction l with
  | nil => intro s0 ids0 k; simp
  | cons i rest ih =>
    intro s0 ids0 k
    simp only [List.foldl_cons, nodeStep, List.map_cons]
    have h := ih
      (s0 ++ [mkNodeStmt (label ++ "_" ++ Nat.repr i) info.external_label
        (genProps info.properties g k).1])
      (ids0 ++ [label ++ "_" ++ Nat.repr i])
      ((genProps info.properties g k).2)
    refine ⟨?_, ?_⟩
    · rw [h.1]
      simp
      omega
    · rw [h.2]
      simp

theorem genNodesFor_length (label : String) (info : NodeInfo) (n : Nat) (g : Nat → Nat)
    (k : Nat) : (genNodesFor label info n g k).1.length = n := by
  have h := (genNodesFor_loop label info g (List.range n) [] [] k).1
  simpa [genNodesFor] using h

theorem genNodesFor_ids (label : String) (info : NodeInfo) (n : Nat) (g : Nat → Nat)
    (k : Nat) : (genNodesFor label info n g k).2.1 = idsFor label n := by
  have h := (genNodesFor_loop label info g (List.range n) [] [] k).2
  simpa [genNodesFor, idsFor] using h

theorem lookupA_appendIds_self (m : List (String × List String)) (label : String)
    (v : List String) :
    lookupA (appendIds m label v) label = (lookupA m label).map (fun old => old ++ v) := by
  induction m with
  | nil => simp [appendIds, lookupA]
  | cons p rest ih =>
    obtain ⟨l, old⟩ := p
    by_cases h : l = label
    · subst h
      simp [appendIds, lookupA]
    · simp [appendIds, lookupA, h, ih]

theorem lookupA_appendIds_other (m : List (String × List String)) (l0 label : String)
    (v : List String) (h : l0 ≠ label) :
    lookupA (appendIds m l0 v) label = lookupA m label := by
  induction m with
  | nil => simp [appendIds, lookupA]
  | cons p rest ih =>
    obtain ⟨l, old⟩ := p
    by_cases hl : l = l0
    · subst hl
      simp [appendIds, lookupA, h, ih]
    · simp [appendIds, lookupA, hl, ih]

theorem nodesOuter_untouched (counts : List (String × Int)) (dflt : Int) (g : Nat → Nat) :
    ∀ (todo : List (String × NodeInfo)) (acc : List String × List (String × List String) × Nat)
      (label : String), label ∉ todo.map Prod.fst →
      lookupA (todo.foldl (nodesStep counts dflt g) acc).2.1 label = lookupA acc.2.1 label := by
  intro todo
  induction todo with
  | nil => intro acc label _; rfl
  | cons p rest ih =>
    intro acc label h
    simp only [List.map_cons, List.mem_cons] at h
    push_neg at h
    simp only [List.foldl_cons]
    rw [ih _ label h.2]
    simp [nodesStep, lookupA_appendIds_other _ p.1 label _ (fun hh => h.1 hh.symm)]

theorem nodesOuter_main (counts : List (String × Int)) (dflt : Int) (g : Nat → Nat) :
    ∀ (todo : List (String × NodeInfo)) (acc : List String × List (String × List String) × Nat)
      (label : String) (info : NodeInfo),
      (label, info) ∈ todo → (todo.map Prod.fst).Nodup →
      lookupA acc.2.1 label = some [] →
      lookupA (todo.foldl (nodesStep counts dflt g) acc).2.1 label =
        some (idsFor label ((lookupA counts label).getD dflt).toNat) := by
  intro todo
  induction todo with
  | nil => intro acc label info h; simp at h
  | cons p rest ih =>
    intro acc label info hmem hnd hinit
    simp only [List.map_cons, List.nodup_cons] at hnd
    rcases List.mem_cons.mp hmem with heq | hrest
    · have hp1 : p.1 = label := by rw [← heq]
      have hnot : label ∉ rest.map Prod.fst := hp1 ▸ hnd.1
      simp only [List.foldl_cons]
      rw [nodesOuter_untouched counts dflt g rest _ label hnot]
      simp only [nodesStep]
      rw [hp1, lookupA_appendIds_self, hinit, genNodesFor_ids]
      rfl
    · have hp1 : p.1 ≠ label := by
        intro hc
        exact hnd.1 (hc ▸ List.mem_map_of_mem Prod.fst hrest)
      simp only [List.foldl_cons]
      apply ih _ label info hrest hnd.2
      simpa [nodesStep, lookupA_appendIds_other _ _ _ _ hp1] using hinit

theorem lookupA_init_nil :
    ∀ (nodes : List (String × NodeInfo)) (label : String), label ∈ nodes.map Prod.fst →
      lookupA (nodes.map (fun p => (p.1, ([] : List String)))) label = some [] := by
  intro nodes
  induction nodes with
  | nil => intro label h; simp at h
  | cons p rest ih =>
    intro label h
    by_cases hp : p.1 = label
    · simp [lookupA, hp]
    · simp only [List.map_cons, List.mem_cons] at h
      rcases h with heq | hmem
      · exact absurd heq.symm hp
      · simp only [List.map_cons, lookupA, hp, if_false]
        exact ih label hmem

/-! ### Relationship generation -/

theorem choice_mem (xs : List String) (g : Nat → Nat) (k : Nat) (h : xs ≠ []) :
    (choice xs g k).1 ∈ xs := by
  have hlen : 0 < xs.length := List.length_pos.mpr h
  have hlt : g k % xs.length < xs.length := Nat.mod_lt _ hlen
  simp only [choice]
  rw [List.getD_eq_getElem xs _ hlt]
  exact List.getElem_mem hlt

theorem genRelsFor_balance (xl : String) (starts ends : List String) (g : Nat → Nat)
    (hs : starts ≠ []) (he : ends ≠ []) :
    ∀ (m k : Nat),
      (genRelsFor xl starts ends m g k).1.length + selfLoopCount starts ends g k m = m := by
  intro m
  induction m with
  | zero => intro k; rfl
  | succ m1 ih =>
    intro k
    have hemp : (starts.isEmpty || ends.isEmpty) = false := by
      simp [List.isEmpty_eq_false, hs, he]
    by_cases hse : (choice starts g k).1 = (choice ends g (k + 1)).1
    · simp only [genRelsFor, selfLoopCount, hemp, Bool.false_eq_true, if_false, hse,
        ne_eq, not_true_eq_false, if_true]
      have := ih (k + 2)
      omega
    · simp only [genRelsFor, selfLoopCount, hemp, Bool.false_eq_true, if_false, hse,
        ne_eq, not_false_eq_true, if_true, List.length_cons]
      have := ih (k + 2)
      omega

theorem genRelsFor_nil (xl : String) (starts ends : List String) (g : Nat → Nat)
    (h : starts = [] ∨ ends = []) :
    ∀ (m k : Nat), genRelsFor xl starts ends m g k = ([], k) := by
  have hemp : (starts.isEmpty || ends.isEmpty) = true := by
    rcases h with h | h <;> simp [h]
  intro m
  induction m with
  | zero => intro k; rfl
  | succ m1 ih =>
    intro k
    simp only [genRelsFor, hemp, if_true]
    exact ih k

theorem genRelsFor_mem (xl : String) (starts ends : List String) (g : Nat → Nat) :
    ∀ (m k : Nat) (stmt : String), stmt ∈ (genRelsFor xl starts ends m g k).1 →
      ∃ s ∈ starts, ∃ e ∈ ends, stmt = mkRelStmt s xl e := by
  intro m
  induction m with
  | zero => intro k stmt h; simp [genRelsFor] at h
  | succ m1 ih =>
    intro k stmt h
    by_cases hemp : (starts.isEmpty || ends.isEmpty) = true
    · rw [genRelsFor] at h
      simp only [hemp, if_true] at h
      exact ih k stmt h
    · have hs : starts ≠ [] := by
        intro hc
        simp [hc] at hemp
      have he : ends ≠ [] := by
        intro hc
        simp [hc] at hemp
      rw [genRelsFor] at h
      simp only [hemp, Bool.false_eq_true, if_false] at h
      by_cases hse : (choice starts g k).1 = (choice ends g (k + 1)).1
      · simp only [hse, ne_eq, not_true_eq_false, if_false] at h
        exact ih (k + 2) stmt h
      · simp only [hse, ne_eq, not_false_eq_true, if_true, List.mem_cons] at h
        rcases h with rfl | h
        · exact ⟨(choice starts g k).1, choice_mem starts g k hs,
            (choice ends g (k + 1)).1, choice_mem ends g (k + 1) he, rfl⟩
        · exact ih (k + 2) stmt h

theorem genRelsFor_singleton (xl x : String) (g : Nat → Nat) :
    ∀ (m k : Nat), (genRelsFor xl [x] [x] m g k).1 = [] := by
  intro m
  induction m with
  | zero => intro k; rfl
  | succ m1 ih =>
    intro k
    have hx : ∀ j, (choice [x] g j).1 = x := by
      intro j
      simp [choice, Nat.mod_one]
    simp only [genRelsFor, List.isEmpty_cons, Bool.or_self, Bool.false_eq_true, if_false,
      hx, ne_eq, not_true_eq_false, if_false]
    exact ih (k + 2)

theorem relStep_skip (nids : List (String × List String)) (counts : List (String × Int))
    (dflt : Int) (g : Nat → Nat) (acc : List String × Nat) (r : RelTuple)
    (h : lookupA nids r.2.1 = none ∨ lookupA nids r.2.2.1 = none ∨
      lookupA nids r.2.1 = some [] ∨ lookupA nids r.2.2.1 = some []) :
    relStep nids counts dflt g acc r = acc := by
  rcases h with h | h | h | h
  · simp [relStep, h]
  · rw [relStep]
    rcases hs : lookupA nids r.2.1 with _ | starts
    · rfl
    · rw [h]
    -- remaining: some starts, none handled by match
  · rcases he : lookupA nids r.2.2.1 with _ | ends
    · simp [relStep, h, he]
    · simp [relStep, h, he, genRelsFor_nil _ _ _ g (Or.inl rfl)]
  · rcases hs : lookupA nids r.2.1 with _ | starts
    · simp [relStep, hs]
    · simp [relStep, hs, h, genRelsFor_nil _ _ _ g (Or.inr rfl)]

theorem relsFold_mem (nids : List (String × List String)) (counts : List (String × Int))
    (dflt : Int) (g : Nat → Nat) :
    ∀ (rels : List RelTuple) (acc : List String × Nat) (stmt : String),
      stmt ∈ (rels.foldl (relStep nids counts dflt g) acc).1 →
      stmt ∈ acc.1 ∨ ∃ r ∈ rels, ∃ starts ends,
        lookupA nids r.2.1 = some starts ∧ lookupA nids r.2.2.1 = some ends ∧
        ∃ s ∈ starts, ∃ e ∈ ends, stmt = mkRelStmt s r.2.2.2 e := by
  intro rels
  induction rels with
  | nil => intro acc stmt h; exact Or.inl h
  | cons r rest ih =>
    intro acc stmt h
    simp only [List.foldl_cons] at h
    rcases ih (relStep nids counts dflt g acc r) stmt h with hacc | ⟨r2, hr2, hrest⟩
    · rcases hs : lookupA nids r.2.1 with _ | starts
      · rw [relStep_skip nids counts dflt g acc r (Or.inl hs)] at hacc
        exact Or.inl hacc
      · rcases he : lookupA nids r.2.2.1 with _ | ends
        · rw [relStep_skip nids counts dflt g acc r (Or.inr (Or.inl he))] at hacc
          exact Or.inl hacc
        · rw [relStep] at hacc
          rw [hs, he] at hacc
          simp only [List.mem_append] at hacc
          rcases hacc with hacc | hnew
          · exact Or.inl hacc
          · obtain ⟨s, hsm, e, hem, rfl⟩ :=
              genRelsFor_mem r.2.2.2 starts ends g _ acc.2 stmt hnew
            exact Or.inr ⟨r, List.mem_cons_self r rest, starts, ends, hs, he,
              s, hsm, e, hem, rfl⟩
    · exact Or.inr ⟨r2, List.mem_cons_of_mem r hr2, hrest⟩

/-! ### Values, maps, and random draws -/

theorem lookupA_upsert_self (m : List (String × α)) (k : String) (v : α) :
    lookupA (upsert m k v) k = some v := by
  induction m with
  | nil => simp [upsert, lookupA]
  | cons p rest ih =>
    obtain ⟨k1, v1⟩ := p
    by_cases h : k1 = k
    · subst h
      simp [upsert, lookupA]
    · simp [upsert, lookupA, h, ih]

theorem length_asString (l : List Char) : (List.asString l).length = l.length := rfl

theorem randString_length (g : Nat → Nat) (k : Nat) : (randString g k).1.length = 8 := by
  simp [randString, length_asString]

theorem letterOfDraw_isUpper (d : Nat) : (letterOfDraw d).isUpper = true := by
  unfold letterOfDraw
  have h : d % 26 < 26 := Nat.mod_lt _ (by omega)
  generalize hg : d % 26 = r at h ⊢
  interval_cases r <;> decide

theorem randString_upper (g : Nat → Nat) (k : Nat) :
    ∀ c ∈ (randString g k).1.data, c.isUpper := by
  intro c hc
  simp only [randString, List.asString, List.mem_map] at hc
  obtain ⟨j, _, rfl⟩ := hc
  exact letterOfDraw_isUpper _

theorem randInt1000_bounds (g : Nat → Nat) (k : Nat) :
    1 ≤ (randInt1000 g k).1 ∧ (randInt1000 g k).1 ≤ 1000 := by
  have h : g k % 1000 < 1000 := Nat.mod_lt _ (by omega)
  simp only [randInt1000]
  omega

/-! ### Claim theorems -/

/-- **C1**: for every NodeType with a resolved instance count `N` (taken from
the count overrides, or the default when absent), `generate_cypher_for_nodes`
emits exactly `N` creation statements for that label, and the identifier list
recorded for that label has length exactly `N`, with all identifiers pairwise
distinct, each of the form `label_i` for `i` in `[0, N)`. -/
theorem C1_node_counts (nodes : List (String × NodeInfo)) (counts : List (String × Int))
    (dflt : Int) (g : Nat → Nat) (label : String) (info : NodeInfo) (N k : Nat)
    (hmem : (label, info) ∈ nodes) (hnd : (nodes.map Prod.fst).Nodup)
    (hN : (lookupA counts label).getD dflt = (N : Int)) :
    (genNodesFor label info N g k).1.length = N ∧
    lookupA (generate_cypher_for_nodes nodes counts dflt g).2.1 label = some (idsFor label N) ∧
    (idsFor label N).length = N ∧ (idsFor label N).Nodup ∧
    ∀ s ∈ idsFor label N, ∃ i, i < N ∧ s = label ++ "_" ++ Nat.repr i := by
  refine ⟨genNodesFor_length label info N g k, ?_, idsFor_length label N,
    idsFor_nodup label N, idsFor_shape label N⟩
  have hinit := lookupA_init_nil nodes label (List.mem_map_of_mem Prod.fst hmem)
  have h := nodesOuter_main counts dflt g nodes
    ([], nodes.map (fun p => (p.1, [])), 0) label info hmem hnd hinit
  simp only [generate_cypher_for_nodes]
  rw [h, hN]
  simp

theorem C1_node_counts_witness :
    (genNodesFor "A" ⟨"B", []⟩ 2 (fun _ => 0) 0).1.length = 2 ∧
    lookupA (generate_cypher_for_nodes [("A", ⟨"B", []⟩)] [] 2 (fun _ => 0)).2.1 "A" =
      some (idsFor "A" 2) ∧
    (idsFor "A" 2).length = 2 ∧ (idsFor "A" 2).Nodup ∧
    ∀ s ∈ idsFor "A" 2, ∃ i, i < 2 ∧ s = "A" ++ "_" ++ Nat.repr i :=
  C1_node_counts [("A", ⟨"B", []⟩)] [] 2 (fun _ => 0) "A" ⟨"B", []⟩ 2 0
    (by simp) (by simp) (by rfl)

/-- **C2**: for a relationship type whose start and end identifier pools are
both nonempty, generation emits at most `M` statements, the deficit being
exactly the number of attempts whose two draws coincide (a self-loop attempt
is dropped with no replacement); and the schema with one property-free Person
and a Person-to-Person `knows` type under counts nodes=1, edges=5 yields
exactly 1 node statement and 0 relationship statements. -/
theorem C2_self_loop_deficit :
    (∀ (xl : String) (starts ends : List String) (g : Nat → Nat) (m k : Nat),
      starts ≠ [] → ends ≠ [] →
      selfLoopCount starts ends g k m ≤ m ∧
      (genRelsFor xl starts ends m g k).1.length = m - selfLoopCount starts ends g k m) ∧
    ∀ g : Nat → Nat,
      (generate_cypher_for_nodes (parse_pg_schema schemaPersonKnows).1 [] 1 g).1.length = 1 ∧
      (generate_cypher_for_relationships (parse_pg_schema schemaPersonKnows).2
        (generate_cypher_for_nodes (parse_pg_schema schemaPersonKnows).1 [] 1 g).2.1 [] 5 g
        (generate_cypher_for_nodes (parse_pg_schema schemaPersonKnows).1 [] 1 g).2.2).1 = [] := by
  constructor
  · intro xl starts ends g m k hs he
    have hb := genRelsFor_balance xl starts ends g hs he m k
    omega
  · intro g
    refine ⟨rfl, ?_⟩
    show ([] ++ (genRelsFor "knows" ["PersonType_0"] ["PersonType_0"] 5 g 0).1 : List String) = []
    rw [genRelsFor_singleton]
    rfl

theorem C2_self_loop_deficit_witness :
    selfLoopCount ["a", "b"] ["b"] (fun _ => 0) 0 3 ≤ 3 ∧
    (genRelsFor "r" ["a", "b"] ["b"] 3 (fun _ => 0) 0).1.length =
      3 - selfLoopCount ["a", "b"] ["b"] (fun _ => 0) 0 3 :=
  C2_self_loop_deficit.1 "r" ["a", "b"] ["b"] (fun _ => 0) 3 0 (by simp) (by simp)

/-- **C3**: a relationship type whose start or end label has no generated
identifiers (absent from `node_ids` because never declared as a node, or
present with an empty list because generated with count 0) contributes zero
statements and leaves the accumulated output and stream position unchanged:
the type is skipped entirely for all its attempts. -/
theorem C3_skip_missing_labels (nids : List (String × List String))
    (counts : List (String × Int)) (dflt : Int) (g : Nat → Nat) (acc : List String × Nat)
    (k0 : Nat) (r : RelTuple)
    (h : lookupA nids r.2.1 = none ∨ lookupA nids r.2.2.1 = none ∨
      lookupA nids r.2.1 = some [] ∨ lookupA nids r.2.2.1 = some []) :
    relStep nids counts dflt g acc r = acc ∧
    generate_cypher_for_relationships [r] nids counts dflt g k0 = ([], k0) := by
  refine ⟨relStep_skip nids counts dflt g acc r h, ?_⟩
  show relStep nids counts dflt g ([], k0) r = ([], k0)
  exact relStep_skip nids counts dflt g ([], k0) r h

theorem C3_skip_missing_labels_witness :
    (relStep [("B", ["B_0"])] [] 4 (fun _ => 0) ([], 0) ("R", "A", "B", "r") = ([], 0)) ∧
    generate_cypher_for_relationships [("R", "A", "B", "r")] [("B", ["B_0"])] [] 4
      (fun _ => 0) 0 = ([], 0) :=
  C3_skip_missing_labels [("B", ["B_0"])] [] 4 (fun _ => 0) ([], 0) 0 ("R", "A", "B", "r")
    (Or.inl (by decide))

/-- **C9**: every relationship statement emitted references a start identifier
belonging to the recorded identifier list of the relationship's start label
and an end identifier belonging to that of its end label. -/
theorem C9_rel_identifiers (rels : List RelTuple) (nids : List (String × List String))
    (counts : List (String × Int)) (dflt : Int) (g : Nat → Nat) (k0 : Nat) (stmt : String)
    (h : stmt ∈ (generate_cypher_for_relationships rels nids counts dflt g k0).1) :
    ∃ r ∈ rels, ∃ starts ends,
      lookupA nids r.2.1 = some starts ∧ lookupA nids r.2.2.1 = some ends ∧
      ∃ s ∈ starts, ∃ e ∈ ends, stmt = mkRelStmt s r.2.2.2 e := by
  have hm := relsFold_mem nids counts dflt g rels ([], k0) stmt h
  rcases hm with hacc | hgood
  · simp at hacc
  · exact hgood

theorem C9_rel_identifiers_witness :
    ∃ r ∈ [(("R" : String), ("A" : String), ("B" : String), ("r" : String))],
      ∃ starts ends,
        lookupA [("A", ["A_0"]), ("B", ["B_0"])] r.2.1 = some starts ∧
        lookupA [("A", ["A_0"]), ("B", ["B_0"])] r.2.2.1 = some ends ∧
        ∃ s ∈ starts, ∃ e ∈ ends, mkRelStmt "A_0" "r" "B_0" = mkRelStmt s r.2.2.2 e :=
  C9_rel_identifiers [("R", "A", "B", "r")] [("A", ["A_0"]), ("B", ["B_0"])] [] 1
    (fun _ => 0) 0 (mkRelStmt "A_0" "r" "B_0") (by decide)

/-- **C4 counterexample**: the single line `(A: B \x7bx INT\x7d) (:A)-[R: r]->(:A)`
is recorded both as a node declaration and as a relationship declaration
(`search` finds each pattern somewhere in the line, and the two checks are
independent), refuting the claim that no single line is recorded as both. -/
theorem C4_both_constructs_cex :
    parse_pg_schema "(A: B \x7bx INT\x7d) (:A)-[R: r]->(:A)" =
      ([("A", ⟨"B", [("x", "INT")]⟩)], [("R", "A", "A", "r")]) := by
  decide

/-- **C4 amended**: each line is tested independently against both patterns:
a line where both patterns match is recorded both as a node and as a
relationship declaration; a line matching neither is ignored without error,
and the parser never raises. -/
theorem C4_line_dispatch (st : List (String × NodeInfo) × List RelTuple)
    (bothLine noneLine : String) (il el ps sl irl erl el2 : String)
    (hne : pyStrip bothLine ≠ "")
    (hn : searchNode (pyStrip bothLine).data = some (il, el, ps))
    (hr : searchRel (pyStrip bothLine).data = some (sl, irl, erl, el2)) :
    searchNode (pyStrip noneLine).data = none →
    searchRel (pyStrip noneLine).data = none →
    parseLine st bothLine =
      (upsert st.1 il ⟨el, parseProps ps⟩, st.2 ++ [(irl, sl, el2, erl)]) ∧
    parseLine st noneLine = st := by
  intro hn2 hr2
  constructor
  · rw [parseLine]
    simp [hne, hn, hr]
  · rw [parseLine]
    by_cases h0 : pyStrip noneLine = ""
    · simp [h0]
    · simp [h0, hn2, hr2]

theorem C4_line_dispatch_witness :
    parseLine (([] : List (String × NodeInfo)), ([] : List RelTuple))
        "(A: B \x7bx INT\x7d) (:A)-[R: r]->(:A)" =
      (upsert [] "A" ⟨"B", parseProps "x INT"⟩, [] ++ [("R", "A", "A", "r")]) ∧
    parseLine (([] : List (String × NodeInfo)), ([] : List RelTuple)) "garbage" = ([], []) :=
  C4_line_dispatch ([], []) "(A: B \x7bx INT\x7d) (:A)-[R: r]->(:A)" "garbage"
    "A" "B" "x INT" "A" "R" "r" "A"
    (by decide) (by decide) (by decide) (by decide) (by decide)

/-- **C5 counterexample**: the count resolver stores the negative value of row
`X,-3` unchanged, so not every value in the returned mapping is a non-negative
integer. -/
theorem C5_negative_value_cex :
    lookupA (read_csv_counts [["X", "-3"]]) "X" = some (-3) ∧ ¬ (0 ≤ (-3 : Int)) := by
  exact ⟨by decide, by decide⟩

/-- **C5 amended**: every value in the resolver's mapping is an integer parsed
from the count column by Python `int` (possibly negative): rows with fewer
than two columns are skipped, rows whose count column does not parse as an
integer are skipped, and later rows for the same label overwrite earlier
ones. -/
theorem C5_csv_rows (m : List (String × Int)) (row : List String)
    (a bGood bBad : String) (rest : List String) (n : Int) :
    (row.length < 2 → csvStep m row = m) ∧
    (pyInt (pyStrip bBad) = none → csvStep m (a :: bBad :: rest) = m) ∧
    (pyInt (pyStrip bGood) = some n → csvStep m (a :: bGood :: rest) = upsert m (pyStrip a) n) ∧
    ∀ v : Int, lookupA (upsert m (pyStrip a) v) (pyStrip a) = some v := by
  refine ⟨?_, ?_, ?_, fun v => lookupA_upsert_self m (pyStrip a) v⟩
  · intro hlen
    rcases row with _ | ⟨x, _ | ⟨y, r⟩⟩
    · rfl
    · rfl
    · simp only [List.length_cons] at hlen
      omega
  · intro hb
    simp [csvStep, hb]
  · intro hb
    simp [csvStep, hb]

theorem C5_csv_rows_witness :
    csvStep ([("X", 1)] : List (String × Int)) ["Y"] = [("X", 1)] ∧
    csvStep ([("X", 1)] : List (String × Int)) ["X", "abc"] = [("X", 1)] ∧
    csvStep ([("X", 1)] : List (String × Int)) ["X", "-3"] =
      upsert ([("X", 1)] : List (String × Int)) (pyStrip "X") (-3) ∧
    lookupA (upsert ([("X", 1)] : List (String × Int)) (pyStrip "X") 7) (pyStrip "X") =
      some 7 :=
  ⟨(C5_csv_rows [("X", 1)] ["Y"] "X" "-3" "abc" [] (-3)).1 (by decide),
   (C5_csv_rows [("X", 1)] ["Y"] "X" "-3" "abc" [] (-3)).2.1 (by decide),
   (C5_csv_rows [("X", 1)] ["Y"] "X" "-3" "abc" [] (-3)).2.2.1 (by decide),
   (C5_csv_rows [("X", 1)] ["Y"] "X" "-3" "abc" [] (-3)).2.2.2 7⟩

/-- **C6 counterexample**: a node line with no property block at all,
`(A: B)`, is not recognized — `node_pattern` requires the braces — so the
parse result is empty, refuting the "(or absent)" part of the claim. -/
theorem C6_absent_block_cex : parse_pg_schema "(A: B)" = ([], []) := by
  decide

/-- **C6 amended**: the property block must be present but may be empty: an
empty (or whitespace-only) block yields a NodeType with zero properties, and a
property entry with fewer than two whitespace-separated tokens is silently
dropped. -/
theorem C6_property_block (s entry : String) :
    parse_pg_schema "(A: B \x7b\x7d)" = ([("A", ⟨"B", []⟩)], []) ∧
    (pyStrip s = "" → parseProps s = []) ∧
    ((pyWords entry).length < 2 → propOfEntry entry = none) := by
  refine ⟨by decide, ?_, ?_⟩
  · intro h
    simp [parseProps, h]
  · intro h
    rcases hw : pyWords entry with _ | ⟨x, _ | ⟨y, r⟩⟩
    · simp [propOfEntry, hw]
    · simp [propOfEntry, hw]
    · rw [hw] at h
      simp only [List.length_cons] at h
      omega

theorem C6_property_block_witness :
    parse_pg_schema "(A: B \x7b\x7d)" = ([("A", ⟨"B", []⟩)], []) ∧
    parseProps " " = [] ∧ propOfEntry "x" = none :=
  ⟨(C6_property_block " " "x").1, (C6_property_block " " "x").2.1 (by decide),
    (C6_property_block " " "x").2.2 (by decide)⟩

/-- **C7**: a STRING property receives a random fixed-length 8-character
uppercase-letter string, an INT property a random integer in the inclusive
range [1, 1000], and any other type string is treated as STRING; rendering
wraps string values in quotes and prints integers bare. -/
theorem C7_property_values (t : String) (g : Nat → Nat) (k : Nat) :
    (pyUpper t = "INT" → ∃ n : Int, genValue t g k = (.int n, k + 1) ∧ 1 ≤ n ∧ n ≤ 1000) ∧
    (pyUpper t ≠ "INT" → ∃ s : String, genValue t g k = (.str s, k + 8) ∧
      s.length = 8 ∧ ∀ c ∈ s.data, c.isUpper) ∧
    (∀ s : String, pyRepr (.str s) = squote ++ s ++ squote) ∧
    ∀ n : Int, pyRepr (.int n) = toString n := by
  refine ⟨?_, ?_, fun s => rfl, fun n => rfl⟩
  · intro hint
    have hns : pyUpper t ≠ "STRING" := by
      rw [hint]
      decide
    refine ⟨(randInt1000 g k).1, ?_, randInt1000_bounds g k⟩
    simp [genValue, hint, hns, randInt1000]
  · intro hnint
    by_cases hstr : pyUpper t = "STRING"
    · exact ⟨(randString g k).1, by simp [genValue, hstr, randString],
        randString_length g k, randString_upper g k⟩
    · exact ⟨(randString g k).1, by simp [genValue, hstr, hnint, randString],
        randString_length g k, randString_upper g k⟩

theorem C7_property_values_witness :
    (∃ n : Int, genValue "INT" (fun _ => 0) 0 = (.int n, 1) ∧ 1 ≤ n ∧ n ≤ 1000) ∧
    ∃ s : String, genValue "text" (fun _ => 0) 0 = (.str s, 8) ∧ s.length = 8 ∧
      ∀ c ∈ s.data, c.isUpper :=
  ⟨(C7_property_values "INT" (fun _ => 0) 0).1 (by decide),
   (C7_property_values "text" (fun _ => 0) 0).2.1 (by decide)⟩

/-- **C8**: the schema `(PersonType: Person \x7bname STRING, age INT\x7d)` with
default counts nodes=2 and edges=0 produces exactly 2 node CREATE statements
referencing external label Person, each containing a quoted name value (an
8-letter string) and an unquoted age value (an integer in [1, 1000]), and zero
relationship statements. -/
theorem C8_person_scenario (g : Nat → Nat) :
    ∃ s0 s1 : String, ∃ n0 n1 : Int,
      (generate_cypher_for_nodes (parse_pg_schema schemaPersonProps).1 [] 2 g).1 =
        [mkNodeStmt "PersonType_0" "Person" [("name", .str s0), ("age", .int n0)],
         mkNodeStmt "PersonType_1" "Person" [("name", .str s1), ("age", .int n1)]] ∧
      s0.length = 8 ∧ s1.length = 8 ∧ 1 ≤ n0 ∧ n0 ≤ 1000 ∧ 1 ≤ n1 ∧ n1 ≤ 1000 ∧
      (generate_cypher_for_relationships (parse_pg_schema schemaPersonProps).2
        (generate_cypher_for_nodes (parse_pg_schema schemaPersonProps).1 [] 2 g).2.1 [] 0 g
        (generate_cypher_for_nodes (parse_pg_schema schemaPersonProps).1 [] 2 g).2.2).1
        = [] := by
  refine ⟨(randString g 0).1, (randString g 9).1, (randInt1000 g 8).1, (randInt1000 g 17).1,
    ?_, randString_length g 0, randString_length g 9,
    (randInt1000_bounds g 8).1, (randInt1000_bounds g 8).2,
    (randInt1000_bounds g 17).1, (randInt1000_bounds g 17).2, ?_⟩
  · rfl
  · rfl

/-- **C10**: a negative count in the override source (row `X,-3`) is stored as
is by the count resolver, and node generation for that label then emits zero
statements with an empty identifier list, raising no error: the negative count
behaves like zero. -/
theorem C10_negative_count :
    read_csv_counts [["X", "-3"]] = [("X", -3)] ∧
    ∀ g : Nat → Nat,
      generate_cypher_for_nodes [("X", ⟨"Y", []⟩)] (read_csv_counts [["X", "-3"]]) 4 g =
        ([], [("X", [])], 0) :=
  ⟨by decide, fun g => rfl⟩

end PgsGen
